import Mathlib

/-!
Verification of the blagnacoscope takeoff/landing pipeline
(`blagnacoscope/frontend/utils/__init__.py`).

The development embeds the data model and the operations of
`aggregate_takeoffs_landings` and its helpers: the SQL ping filter
(`AIRBORNE_WHERE`, `TOFF_LAN_WHERE`), the geodesic zone builder
(`airport_zones`), the point-in-zone membership test (shapely `within`),
the sub-flight segmentation (lines 86-88), and the per-sub-flight
aggregation and reference-data enrichment (lines 105-154).

Machine numbers are embedded as `Int`/`Rat` (SQLite stores the ping fields
as integers; the runway-heading constant 142.8 is an exact decimal).
-/

/-- One row of the `flights` table, as declared by the SQLAlchemy model in
`scrape.py` (only the columns read by `aggregate_takeoffs_landings`). -/
structure Ping where
  fr_id : String
  time : Int
  heading : Int
  altitude : Int
  ground_speed : Int
  vertical_speed : Int
  on_ground : Bool
  aircraft_code : String
  registration : String
  callsign : String
  number : String
  origin_airport_iata : String
  destination_airport_iata : String
  airline_iata : String
  airline_icao : String
deriving DecidableEq

/-- `RWY_HDG = 142.8`, the runway heading constant of the module. -/
def RWY_HDG : ℚ := 142.8

/-- SQLite's `%` operator: truncated remainder, the result takes the sign
of the dividend. -/
def sqliteMod (a b : ℤ) : ℤ :=
  if a < 0 then -((-a) % b) else a % b

/-- `AIRBORNE_WHERE = "(on_ground = 0) and (ground_speed >= 20)"`. -/
def airborne_where (p : Ping) : Bool :=
  (!p.on_ground) && decide (20 ≤ p.ground_speed)

/-- `TOFF_LAN_WHERE`: airborne, `abs(heading % 180 - 142.8) < 5`, and
`altitude < 10000`. -/
def toff_lan_where (p : Ping) : Bool :=
  airborne_where p
    && decide (|((sqliteMod p.heading 180 : ℤ) : ℚ) - RWY_HDG| < 5)
    && decide (p.altitude < 10000)

/-! ## Track segmentation (lines 86-88)

`gdf["ping_delta_t"] = gdf.groupby("fr_id")[["time"]].diff().fillna(0)`
computes, for each row, its time minus the time of the previous row with
the same `fr_id` (in stored row order; 0 when there is none).
`gdf["subflight_nb"] = (gdf["ping_delta_t"] > 3 * 60).cumsum()` is a
cumulative sum over the whole column, and
`gdf["subflight_id"]` glues `fr_id`, an underscore and `subflight_nb`.
-/

/-- Per-aircraft consecutive time deltas in stored row order.  `front` is
the reversed list of rows already processed, so
`front.find?` returns the previous row of the same aircraft. -/
def groupDiff : List Ping → List Ping → List Int
  | _, [] => []
  | front, p :: rest =>
    (match front.find? (fun q => q.fr_id == p.fr_id) with
      | some q => p.time - q.time
      | none => 0) :: groupDiff (p :: front) rest

/-- The `ping_delta_t` column. -/
def ping_delta_t (rows : List Ping) : List Int :=
  groupDiff [] rows

/-- Cumulative sum of the boolean column `ping_delta_t > 3 * 60`
(a single counter over the whole table, not per aircraft). -/
def cumsumFlags (acc : Nat) : List Int → List Nat
  | [] => []
  | d :: ds =>
    (if 3 * 60 < d then acc + 1 else acc) ::
      cumsumFlags (if 3 * 60 < d then acc + 1 else acc) ds

/-- The `subflight_nb` column. -/
def subflight_nb (rows : List Ping) : List Nat :=
  cumsumFlags 0 (ping_delta_t rows)

/-- The `subflight_id` of one row. -/
def subflight_id (p : Ping) (nb : Nat) : String :=
  p.fr_id ++ "_" ++ toString nb

/-- The `subflight_id` column. -/
def subflight_ids (rows : List Ping) : List String :=
  List.zipWith subflight_id rows (subflight_nb rows)

/-- A ping that passes `toff_lan_where`, with the given aircraft id and
timestamp; used to build concrete scenarios. -/
def mkPing (id : String) (t : Int) : Ping :=
  { fr_id := id
    time := t
    heading := 140
    altitude := 1000
    ground_speed := 250
    vertical_speed := 10
    on_ground := false
    aircraft_code := ""
    registration := ""
    callsign := ""
    number := ""
    origin_airport_iata := ""
    destination_airport_iata := ""
    airline_iata := ""
    airline_icao := "" }

def defaultPing : Ping := mkPing "" 0

/-- The spec scenario: aircraft abc123 pinging at times 1000, 1185, 1190. -/
def scenario_abc : List Ping :=
  [mkPing "abc123" 1000, mkPing "abc123" 1185, mkPing "abc123" 1190]

/-! ## Basic facts about the segmentation columns -/

theorem groupDiff_length (front rows : List Ping) :
    (groupDiff front rows).length = rows.length := by
  induction rows generalizing front with
  | nil => rfl
  | cons p rest ih => simp [groupDiff, ih]

theorem cumsumFlags_length (ds : List Int) :
    ∀ acc, (cumsumFlags acc ds).length = ds.length := by
  induction ds with
  | nil => intro acc; rfl
  | cons d ds ih => intro acc; simp [cumsumFlags, ih]

theorem subflight_nb_length (rows : List Ping) :
    (subflight_nb rows).length = rows.length := by
  simp [subflight_nb, ping_delta_t, cumsumFlags_length, groupDiff_length]

theorem subflight_ids_length (rows : List Ping) :
    (subflight_ids rows).length = rows.length := by
  simp [subflight_ids, List.length_zipWith, subflight_nb_length]

/-- The value of the cumulative-sum column at index `n` is the start value
plus the number of deltas above the threshold among entries `0..n`. -/
theorem cumsumFlags_getD (ds : List Int) :
    ∀ (acc n : Nat), n < ds.length →
      (cumsumFlags acc ds).getD n 0 =
        acc + (ds.take (n + 1)).countP (fun d => decide (3 * 60 < d)) := by
  induction ds with
  | nil => intro acc n h; simp at h
  | cons d ds ih =>
    intro acc n h
    cases n with
    | zero =>
      show (if 3 * 60 < d then acc + 1 else acc) =
        acc + ((d :: ds).take 1).countP (fun d => decide (3 * 60 < d))
      rw [List.take_succ_cons, List.take_zero, List.countP_cons, List.countP_nil]
      simp only [decide_eq_true_eq]
      split <;> omega
    | succ n =>
      have h' : n < ds.length := by simpa using h
      have hih := ih (if 3 * 60 < d then acc + 1 else acc) n h'
      show (cumsumFlags (if 3 * 60 < d then acc + 1 else acc) ds).getD n 0 =
        acc + ((d :: ds).take (n + 2)).countP (fun d => decide (3 * 60 < d))
      rw [hih, List.take_succ_cons, List.countP_cons]
      simp only [decide_eq_true_eq]
      split <;> omega

theorem getD_zipWith {α β γ : Type} (f : α → β → γ) (da : α) (db : β) (dc : γ) :
    ∀ (l₁ : List α) (l₂ : List β) (n : Nat), n < l₁.length → n < l₂.length →
      (List.zipWith f l₁ l₂).getD n dc = f (l₁.getD n da) (l₂.getD n db) := by
  intro l₁
  induction l₁ with
  | nil => intro l₂ n h _; simp at h
  | cons a l₁ ih =>
    intro l₂ n h1 h2
    cases l₂ with
    | nil => simp at h2
    | cons b l₂ =>
      cases n with
      | zero => rfl
      | succ n =>
        simp only [List.zipWith, List.getD_cons_succ]
        exact ih l₂ n (by simpa using h1) (by simpa using h2)

theorem exists_of_mem_zipWith {α β γ : Type} {f : α → β → γ} :
    ∀ {l₁ : List α} {l₂ : List β} {z : γ}, z ∈ List.zipWith f l₁ l₂ →
      ∃ a ∈ l₁, ∃ b ∈ l₂, z = f a b := by
  intro l₁
  induction l₁ with
  | nil => intro l₂ z h; simp at h
  | cons a l₁ ih =>
    intro l₂ z h
    cases l₂ with
    | nil => simp at h
    | cons b l₂ =>
      rcases List.mem_cons.mp h with h | h
      · exact ⟨a, by simp, b, by simp, h⟩
      · rcases ih h with ⟨a', ha, b', hb, hz⟩
        exact ⟨a', by simp [ha], b', by simp [hb], hz⟩

/-- The cumulative sum is non-decreasing and bounded below by its start. -/
theorem cumsumFlags_chain (ds : List Int) :
    ∀ acc, List.Chain' (· ≤ ·) (cumsumFlags acc ds) ∧
      ∀ c ∈ cumsumFlags acc ds, acc ≤ c := by
  induction ds with
  | nil => intro acc; exact ⟨by simp [cumsumFlags], by simp [cumsumFlags]⟩
  | cons d ds ih =>
    intro acc
    have hstep : acc ≤ (if 3 * 60 < d then acc + 1 else acc) := by split <;> omega
    refine ⟨?_, ?_⟩
    · rw [show cumsumFlags acc (d :: ds) =
          (if 3 * 60 < d then acc + 1 else acc) ::
            cumsumFlags (if 3 * 60 < d then acc + 1 else acc) ds from rfl,
        List.chain'_cons']
      refine ⟨?_, (ih _).1⟩
      intro b hb
      exact (ih _).2 b (List.mem_of_mem_head? hb)
    · intro c hc
      rcases List.mem_cons.mp hc with h | h
      · omega
      · exact le_trans hstep ((ih _).2 c h)

/-- If no delta exceeds the threshold the cumulative sum stays constant. -/
theorem cumsumFlags_of_all_le (ds : List Int) (h : ∀ d ∈ ds, d ≤ 3 * 60) :
    ∀ acc, ∀ c ∈ cumsumFlags acc ds, c = acc := by
  induction ds with
  | nil => intro acc c hc; simp [cumsumFlags] at hc
  | cons d ds ih =>
    intro acc c hc
    have hd : ¬(3 * 60 < d) := by have := h d (by simp); omega
    rw [show cumsumFlags acc (d :: ds) =
        (if 3 * 60 < d then acc + 1 else acc) ::
          cumsumFlags (if 3 * 60 < d then acc + 1 else acc) ds from rfl,
      if_neg hd] at hc
    rcases List.mem_cons.mp hc with h' | h'
    · exact h'
    · exact ih (fun x hx => h x (by simp [hx])) acc c h'

/-- For a run of same-aircraft pings whose consecutive time gaps are at
most the threshold, every per-aircraft delta is at most the threshold. -/
theorem groupDiff_le_of_chain (id : String) :
    ∀ (rest : List Ping) (prev : Ping) (front : List Ping),
      (∀ p ∈ rest, p.fr_id = id) → prev.fr_id = id →
      List.Chain (fun p q => q.time - p.time ≤ 3 * 60) prev rest →
      ∀ d ∈ groupDiff (prev :: front) rest, d ≤ 3 * 60 := by
  intro rest
  induction rest with
  | nil => intro prev front _ _ _ d hd; simp [groupDiff] at hd
  | cons p rest ih =>
    intro prev front hall hprev hchain d hd
    have hbeq : (prev.fr_id == p.fr_id) = true := by
      rw [hprev, hall p (by simp)]; simp
    have hfind : (prev :: front).find? (fun q => q.fr_id == p.fr_id) = some prev := by
      simp [List.find?, hbeq]
    rw [show groupDiff (prev :: front) (p :: rest) =
        (match (prev :: front).find? (fun q => q.fr_id == p.fr_id) with
          | some q => p.time - q.time
          | none => 0) :: groupDiff (p :: prev :: front) rest from rfl,
      hfind] at hd
    rcases List.chain_cons.mp hchain with ⟨hgap, hchain'⟩
    rcases List.mem_cons.mp hd with h | h
    · simpa [h] using hgap
    · exact ih p (prev :: front) (fun q hq => hall q (by simp [hq]))
        (hall p (by simp)) hchain' d h

theorem ping_delta_t_le_of_chain (rows : List Ping) (id : String)
    (hall : ∀ p ∈ rows, p.fr_id = id)
    (hchain : List.Chain' (fun p q => q.time - p.time ≤ 3 * 60) rows) :
    ∀ d ∈ ping_delta_t rows, d ≤ 3 * 60 := by
  cases rows with
  | nil => simp [ping_delta_t, groupDiff]
  | cons p rest =>
    intro d hd
    rw [show ping_delta_t (p :: rest) = 0 :: groupDiff [p] rest from rfl] at hd
    rcases List.mem_cons.mp hd with h | h
    · omega
    · exact groupDiff_le_of_chain id rest p []
        (fun q hq => hall q (by simp [hq])) (hall p (by simp)) hchain d h

/-! ## Spec-side segmentation (for comparison with the code)

Formalization of the claim sentence for the Track Segmenter: group pings
by aircraft identifier, sort each group by timestamp ascending, define the
first delta as zero, increment the per-aircraft index exactly when a delta
strictly exceeds 180 seconds, and key each ping by aircraft id, an
underscore and that per-aircraft index. -/

def sorted_times (rows : List Ping) (id : String) : List Int :=
  List.insertionSort (· ≤ ·) ((rows.filter (fun p => p.fr_id == id)).map Ping.time)

/-- Walk the sorted timestamps of one aircraft, incrementing the index on
every delta strictly above the threshold; return the index at the first
occurrence of `t`. -/
def spec_index_walk (t : Int) : List Int → Option Int → Nat → Option Nat
  | [], _, _ => none
  | x :: xs, prev, k =>
    let k' := match prev with
      | none => k
      | some pt => if 3 * 60 < x - pt then k + 1 else k
    if x = t then some k' else spec_index_walk t xs (some x) k'

/-- Sub-flight keys as the spec describes them (sorted, per-aircraft). -/
def spec_subflight_ids (rows : List Ping) : List String :=
  rows.map (fun p =>
    p.fr_id ++ "_" ++
      toString ((spec_index_walk p.time (sorted_times rows p.fr_id) none 0).getD 0))

/-- Aircraft abc123 with the same three timestamps, stored out of order. -/
def scenario_unsorted : List Ping :=
  [mkPing "abc123" 1190, mkPing "abc123" 1000, mkPing "abc123" 1185]

/-- Two interleaved aircraft, rows in global time order. -/
def scenario_interleaved : List Ping :=
  [mkPing "bbb" 500, mkPing "aaa" 1000, mkPing "bbb" 1050, mkPing "aaa" 1100]

/-- One aircraft, gaps 100 s and exactly 180 s (no split). -/
def scenario_calm : List Ping :=
  [mkPing "xy" 100, mkPing "xy" 200, mkPing "xy" 380]

/-! ## Claims C1 and C2 -/

/-- C1 (counterexample): the Track Segmenter does NOT sort an aircraft's
pings by timestamp before computing deltas.  On aircraft abc123 stored in
the order 1190, 1000, 1185, the segmentation the claim describes (sort,
then split exactly on per-aircraft deltas above 180 s) puts the
1185- and 1190-pings in sub-flight abc123_1, while the code keys the rows
as abc123_0, abc123_0, abc123_1 in stored order. -/
theorem trackSegmenter_sorts_falsified :
    spec_subflight_ids scenario_unsorted ≠ subflight_ids scenario_unsorted ∧
    subflight_ids scenario_unsorted = ["abc123_0", "abc123_0", "abc123_1"] ∧
    spec_subflight_ids scenario_unsorted = ["abc123_1", "abc123_0", "abc123_1"] := by
  decide

/-- C1 (amended): the segmenter processes rows in stored order without
sorting; row `n`'s delta is its time minus the previous stored row of the
same aircraft (zero when there is none), and its key is its aircraft id,
an underscore, and the number of rows among `0..n` of the WHOLE table
whose delta strictly exceeds 180 seconds (one global counter, not one per
aircraft; a delta of exactly 180 does not increment it).  For a table
holding only aircraft abc123 at times 1000, 1185, 1190 in stored order
this yields keys abc123_0, abc123_1, abc123_1. -/
theorem trackSegmenter_rowOrder_globalCounter :
    (∀ (rows : List Ping) (n : Nat), n < rows.length →
      (subflight_ids rows).getD n "" =
        (rows.getD n defaultPing).fr_id ++ "_" ++
          toString (((ping_delta_t rows).take (n + 1)).countP
            (fun d => decide (3 * 60 < d)))) ∧
    subflight_ids scenario_abc = ["abc123_0", "abc123_1", "abc123_1"] := by
  constructor
  · intro rows n hn
    have hnb : n < (subflight_nb rows).length := by rw [subflight_nb_length]; exact hn
    have hd : n < (ping_delta_t rows).length := by
      simp [ping_delta_t, groupDiff_length]; exact hn
    rw [subflight_ids, getD_zipWith subflight_id defaultPing 0 "" rows _ n hn hnb]
    rw [subflight_nb, cumsumFlags_getD (ping_delta_t rows) 0 n hd, Nat.zero_add]
    rfl
  · decide

theorem trackSegmenter_rowOrder_globalCounter_witness :
    (subflight_ids scenario_abc).getD 1 "" =
      (scenario_abc.getD 1 defaultPing).fr_id ++ "_" ++
        toString (((ping_delta_t scenario_abc).take 2).countP
          (fun d => decide (3 * 60 < d))) :=
  trackSegmenter_rowOrder_globalCounter.1 scenario_abc 1 (by decide)

/-- C2 (counterexample): two consecutive pings of the same aircraft with a
gap of at most 180 s need not share a sub-flight key.  In the table
bbb@500, aaa@1000, bbb@1050, aaa@1100 (global time order), aircraft aaa's
two pings are 100 s apart yet get keys aaa_0 and aaa_1, because the
intervening bbb row has a delta of 550 s and the split counter is global. -/
theorem trackSegmenter_gap_sharing_falsified :
    (scenario_interleaved.getD 1 defaultPing).fr_id = "aaa" ∧
    (scenario_interleaved.getD 2 defaultPing).fr_id = "bbb" ∧
    (scenario_interleaved.getD 3 defaultPing).fr_id = "aaa" ∧
    (scenario_interleaved.getD 3 defaultPing).time -
      (scenario_interleaved.getD 1 defaultPing).time ≤ 3 * 60 ∧
    (subflight_ids scenario_interleaved).getD 1 "" = "aaa_0" ∧
    (subflight_ids scenario_interleaved).getD 3 "" = "aaa_1" := by
  decide

/-- C2 (amended): every ping receives exactly one sub-flight key (one key
per row); the sub-flight counter is non-decreasing in STORED row order
(the code never sorts, so this is not time order); and for a table whose
rows all belong to one aircraft with every consecutive stored gap at most
180 seconds, every row is keyed into sub-flight 0 of that aircraft.
Because the split counter is global across aircraft, the per-aircraft
maximality and gap-sharing parts of the claim fail on interleaved tables
(see the counterexample). -/
theorem trackSegmenter_invariants :
    (∀ rows : List Ping, (subflight_ids rows).length = rows.length) ∧
    (∀ rows : List Ping, List.Chain' (· ≤ ·) (subflight_nb rows)) ∧
    (∀ (rows : List Ping) (id : String),
      (∀ p ∈ rows, p.fr_id = id) →
      List.Chain' (fun p q => q.time - p.time ≤ 3 * 60) rows →
      ∀ k ∈ subflight_ids rows, k = id ++ "_0") := by
  refine ⟨subflight_ids_length, ?_, ?_⟩
  · intro rows
    exact (cumsumFlags_chain (ping_delta_t rows) 0).1
  · intro rows id hall hchain k hk
    rcases exists_of_mem_zipWith hk with ⟨p, hp, c, hc, hkval⟩
    have hdle : ∀ d ∈ ping_delta_t rows, d ≤ 3 * 60 :=
      ping_delta_t_le_of_chain rows id hall hchain
    have hc0 : c = 0 := cumsumFlags_of_all_le (ping_delta_t rows) hdle 0 c hc
    rw [hkval, hc0, subflight_id, hall p hp, String.append_assoc]
    exact congrArg (fun t => id ++ t) (by decide)

theorem trackSegmenter_invariants_witness :
    (subflight_ids scenario_calm).getD 2 "" = "xy_0" := by
  have hch : List.Chain' (fun p q => q.time - p.time ≤ 3 * 60) scenario_calm := by
    show List.Chain (fun p q => q.time - p.time ≤ 3 * 60) (mkPing "xy" 100)
      [mkPing "xy" 200, mkPing "xy" 380]
    exact List.Chain.cons (by decide) (List.Chain.cons (by decide) List.Chain.nil)
  exact trackSegmenter_invariants.2.2 scenario_calm "xy" (by decide) hch
    ((subflight_ids scenario_calm).getD 2 "") (by decide)

/-! ## Geometry engine (`airport_zones`, lines 44-63)

`airport_zones` drives an external geodesic forward solver
(`pyproj.Geod(ellps="WGS84").fwd`), which the embedding abstracts as a
function from a point, an azimuth in degrees and a distance to a point.
The zone builder itself is embedded faithfully; a planar instantiation of
the solver (exact on azimuths that are multiples of 90 degrees) is used
for concrete evaluation. -/

abbrev Fwd : Type := ℚ × ℚ → ℚ → ℚ → ℚ × ℚ

/-- Python's `%` on nonnegative-divisor floats: `x - 360 * floor (x/360)`. -/
def qmod360 (x : ℚ) : ℚ := x - 360 * ⌊x / 360⌋

/-- `airport_zones(lon, lat, azimuth, long_axis, short_axis)`: project the
center along the azimuth and its reciprocal by `long_axis`, offset each
endpoint by `short_axis` at plus and minus 90 degrees, and return the
polygon `(nw1, nw2, se1, se2)`.  Source defaults: lon 1.3642, lat 43.6287,
azimuth `RWY_HDG`, long_axis 15000, short_axis 400. -/
def airport_zones (g : Fwd) (lon lat azimuth long_axis short_axis : ℚ) :
    List (ℚ × ℚ) :=
  let opp_azimuth := qmod360 (azimuth + 180)
  let nw0 := g (lon, lat) opp_azimuth long_axis
  let nw1 := g nw0 (opp_azimuth + 90) short_axis
  let nw2 := g nw0 (opp_azimuth - 90) short_axis
  let se0 := g (lon, lat) azimuth long_axis
  let se1 := g se0 (azimuth + 90) short_axis
  let se2 := g se0 (azimuth - 90) short_axis
  [nw1, nw2, se1, se2]

/-- The zone builder as claim C4 describes it: the perpendicular offsets
use `short_axis / 2` instead of `short_axis`. -/
def airport_zones_spec (g : Fwd) (lon lat azimuth long_axis short_axis : ℚ) :
    List (ℚ × ℚ) :=
  let opp_azimuth := qmod360 (azimuth + 180)
  let nw0 := g (lon, lat) opp_azimuth long_axis
  let nw1 := g nw0 (opp_azimuth + 90) (short_axis / 2)
  let nw2 := g nw0 (opp_azimuth - 90) (short_axis / 2)
  let se0 := g (lon, lat) azimuth long_axis
  let se1 := g se0 (azimuth + 90) (short_axis / 2)
  let se2 := g se0 (azimuth - 90) (short_axis / 2)
  [nw1, nw2, se1, se2]

/-- Sine of an azimuth in degrees, for multiples of 90 degrees. -/
def degSin (a : ℚ) : ℚ :=
  if qmod360 a = 0 then 0
  else if qmod360 a = 90 then 1
  else if qmod360 a = 180 then 0
  else if qmod360 a = 270 then -1
  else 0

/-- Cosine of an azimuth in degrees, for multiples of 90 degrees. -/
def degCos (a : ℚ) : ℚ :=
  if qmod360 a = 0 then 1
  else if qmod360 a = 90 then 0
  else if qmod360 a = 180 then -1
  else if qmod360 a = 270 then 0
  else 0

/-- Planar forward solver: move `d` units along the compass azimuth
(east displacement `d * sin`, north displacement `d * cos`). -/
def planarFwd : Fwd := fun p az d => (p.1 + d * degSin az, p.2 + d * degCos az)

theorem qmod360_eval (x : ℚ) (k : ℤ) (h1 : (k : ℚ) ≤ x / 360)
    (h2 : x / 360 < k + 1) : qmod360 x = x - 360 * k := by
  unfold qmod360
  rw [show ⌊x / 360⌋ = k from Int.floor_eq_iff.mpr ⟨h1, by exact_mod_cast h2⟩]

theorem qmod360_zero : qmod360 0 = 0 := by
  rw [qmod360_eval 0 0 (by norm_num) (by norm_num)]; norm_num

theorem qmod360_90 : qmod360 90 = 90 := by
  rw [qmod360_eval 90 0 (by norm_num) (by norm_num)]; norm_num

theorem qmod360_180 : qmod360 180 = 180 := by
  rw [qmod360_eval 180 0 (by norm_num) (by norm_num)]; norm_num

theorem qmod360_270 : qmod360 270 = 270 := by
  rw [qmod360_eval 270 0 (by norm_num) (by norm_num)]; norm_num

theorem qmod360_360 : qmod360 360 = 0 := by
  rw [qmod360_eval 360 1 (by norm_num) (by norm_num)]; norm_num

theorem degSin_zero : degSin 0 = 0 := by norm_num [degSin, qmod360_zero]
theorem degSin_90 : degSin 90 = 1 := by norm_num [degSin, qmod360_90]
theorem degSin_180 : degSin 180 = 0 := by norm_num [degSin, qmod360_180]
theorem degSin_270 : degSin 270 = -1 := by norm_num [degSin, qmod360_270]
theorem degSin_360 : degSin 360 = 0 := by norm_num [degSin, qmod360_360]
theorem degCos_zero : degCos 0 = 1 := by norm_num [degCos, qmod360_zero]
theorem degCos_90 : degCos 90 = 0 := by norm_num [degCos, qmod360_90]
theorem degCos_180 : degCos 180 = -1 := by norm_num [degCos, qmod360_180]
theorem degCos_270 : degCos 270 = 0 := by norm_num [degCos, qmod360_270]
theorem degCos_360 : degCos 360 = 1 := by norm_num [degCos, qmod360_360]

/-- Evaluation of the code's zone builder in the planar model, azimuth 90:
a rectangle of half-length `L` and half-width `S` (the full short axis on
each side of the centerline). -/
theorem airport_zones_planar_eval (L S : ℚ) :
    airport_zones planarFwd 0 0 90 L S = [(-L, S), (-L, -S), (L, -S), (L, S)] := by
  unfold airport_zones
  rw [show (90 : ℚ) + 180 = 270 from by norm_num, qmod360_270]
  simp only [planarFwd]
  rw [show (270 : ℚ) + 90 = 360 from by norm_num,
    show (270 : ℚ) - 90 = 180 from by norm_num,
    show (90 : ℚ) + 90 = 180 from by norm_num,
    show (90 : ℚ) - 90 = 0 from by norm_num,
    degSin_270, degCos_270, degSin_360, degCos_360, degSin_180, degCos_180,
    degSin_90, degCos_90, degSin_zero, degCos_zero]
  norm_num

/-- Evaluation of the spec's (half-width) zone builder in the same model. -/
theorem airport_zones_spec_planar_eval (L S : ℚ) :
    airport_zones_spec planarFwd 0 0 90 L S =
      [(-L, S / 2), (-L, -(S / 2)), (L, -(S / 2)), (L, S / 2)] := by
  unfold airport_zones_spec
  rw [show (90 : ℚ) + 180 = 270 from by norm_num, qmod360_270]
  simp only [planarFwd]
  rw [show (270 : ℚ) + 90 = 360 from by norm_num,
    show (270 : ℚ) - 90 = 180 from by norm_num,
    show (90 : ℚ) + 90 = 180 from by norm_num,
    show (90 : ℚ) - 90 = 0 from by norm_num,
    degSin_270, degCos_270, degSin_360, degCos_360, degSin_180, degCos_180,
    degSin_90, degCos_90, degSin_zero, degCos_zero]
  norm_num

/-- Twice the signed area of the triangle `o a b` (positive when `b` lies
strictly to the left of the directed line `o -> a`). -/
def cross2 (o a b : ℚ × ℚ) : ℚ :=
  (a.1 - o.1) * (b.2 - o.2) - (a.2 - o.2) * (b.1 - o.1)

/-- A four-vertex polygon is strictly convex in counterclockwise order. -/
def ConvexCCW4 : List (ℚ × ℚ) → Prop
  | [a, b, c, d] =>
    0 < cross2 a b c ∧ 0 < cross2 b c d ∧ 0 < cross2 c d a ∧ 0 < cross2 d a b
  | _ => False

/-- Shapely's `point.within(polygon)` membership used at line 82
(`gdf[gdf.geometry.within(zone)]`): true iff the point lies in the
polygon's INTERIOR.  For the convex counterclockwise quadrilaterals that
`airport_zones` produces, the interior is where every directed-edge cross
product is strictly positive. -/
def withinPoly4 (pt : ℚ × ℚ) : List (ℚ × ℚ) → Bool
  | [a, b, c, d] =>
    decide (0 < cross2 a b pt) && decide (0 < cross2 b c pt) &&
      decide (0 < cross2 c d pt) && decide (0 < cross2 d a pt)
  | _ => false

/-- `pt` lies on the closed segment from `a` to `b`. -/
def onSeg (a b pt : ℚ × ℚ) : Prop :=
  cross2 a b pt = 0 ∧ min a.1 b.1 ≤ pt.1 ∧ pt.1 ≤ max a.1 b.1 ∧
    min a.2 b.2 ≤ pt.2 ∧ pt.2 ≤ max a.2 b.2

/-- `pt` lies on the boundary of the four-vertex polygon. -/
def onBoundary4 (pt : ℚ × ℚ) : List (ℚ × ℚ) → Prop
  | [a, b, c, d] => onSeg a b pt ∨ onSeg b c pt ∨ onSeg c d pt ∨ onSeg d a pt
  | _ => False

/-! ## Claims C3 and C4 -/

/-- C4 (counterexample): the perpendicular offsets use the FULL
`short_axis`, not `short_axis / 2`.  Instantiating the abstract geodesic
solver with the planar model at azimuth 90, center (0,0), long axis 15000
and short axis 400, the code's polygon has half-width 400 while the
claim's construction has half-width 200; the two polygons differ. -/
theorem airportZones_halfWidth_falsified :
    airport_zones planarFwd 0 0 90 15000 400 ≠
      airport_zones_spec planarFwd 0 0 90 15000 400 ∧
    airport_zones planarFwd 0 0 90 15000 400 =
      [(-15000, 400), (-15000, -400), (15000, -400), (15000, 400)] ∧
    airport_zones_spec planarFwd 0 0 90 15000 400 =
      [(-15000, 200), (-15000, -200), (15000, -200), (15000, 200)] := by
  have h1 := airport_zones_planar_eval 15000 400
  have h2 := airport_zones_spec_planar_eval 15000 400
  norm_num at h2
  refine ⟨?_, h1, h2⟩
  rw [h1, h2]
  intro h
  have := List.head_eq_of_cons_eq h
  norm_num at this

/-- C4 (amended): each long-axis endpoint is offset perpendicularly by the
full `short_axis` (so the corridor is two short-axis widths wide), and the
vertex order `(nw1, nw2, se1, se2)` mirrors the two short-axis pairs: in
the planar model at azimuth 90 the corners are `(-L, S)`, `(-L, -S)`,
`(L, -S)`, `(L, S)`, a strictly convex counterclockwise (hence
non-self-intersecting) quadrilateral for positive axes. -/
theorem airportZones_fullWidth_convex :
    (∀ L S : ℚ, airport_zones planarFwd 0 0 90 L S =
      [(-L, S), (-L, -S), (L, -S), (L, S)]) ∧
    (∀ L S : ℚ, 0 < L → 0 < S →
      ConvexCCW4 (airport_zones planarFwd 0 0 90 L S)) := by
  refine ⟨airport_zones_planar_eval, ?_⟩
  intro L S hL hS
  rw [airport_zones_planar_eval]
  have hLS : 0 < L * S := mul_pos hL hS
  refine ⟨?_, ?_, ?_, ?_⟩ <;> (simp only [ConvexCCW4, cross2]; nlinarith)

theorem airportZones_fullWidth_convex_witness :
    ConvexCCW4 (airport_zones planarFwd 0 0 90 15000 400) :=
  airportZones_fullWidth_convex.2 15000 400 (by norm_num) (by norm_num)

/-- C3 (counterexample): the membership test used by the pipeline is
shapely's `within`, which keeps only INTERIOR points; a point exactly on
the boundary of the computed zone polygon is excluded, contrary to the
claim.  In the planar model, the point (-15000, 0) is the midpoint of the
zone's near edge, hence on the boundary, and `within` rejects it, while
the interior center (0, 0) is accepted. -/
theorem zoneBoundary_inclusion_falsified :
    onBoundary4 (-15000, 0) (airport_zones planarFwd 0 0 90 15000 400) ∧
    withinPoly4 (-15000, 0) (airport_zones planarFwd 0 0 90 15000 400) = false ∧
    withinPoly4 (0, 0) (airport_zones planarFwd 0 0 90 15000 400) = true := by
  rw [airport_zones_planar_eval]
  refine ⟨Or.inl ?_, ?_, ?_⟩
  · refine ⟨?_, ?_, ?_, ?_, ?_⟩ <;> norm_num [cross2]
  · have hc : cross2 (-15000, 400) (-15000, -400) (-15000, 0) = 0 := by
      norm_num [cross2]
    simp only [withinPoly4, hc]
    norm_num
  · simp only [withinPoly4]
    norm_num [cross2]

/-- C3 (amended): zone membership is strict-interior: a point on the
boundary of the quadrilateral is excluded, a point strictly outside (on
the strictly-right side of some directed edge) is excluded, and a point
strictly inside (strictly left of every directed edge) is included. -/
theorem zoneMembership_strict :
    (∀ a b c d pt : ℚ × ℚ, onBoundary4 pt [a, b, c, d] →
      withinPoly4 pt [a, b, c, d] = false) ∧
    (∀ a b c d pt : ℚ × ℚ,
      (cross2 a b pt < 0 ∨ cross2 b c pt < 0 ∨ cross2 c d pt < 0 ∨
        cross2 d a pt < 0) →
      withinPoly4 pt [a, b, c, d] = false) ∧
    (∀ a b c d pt : ℚ × ℚ, 0 < cross2 a b pt → 0 < cross2 b c pt →
      0 < cross2 c d pt → 0 < cross2 d a pt →
      withinPoly4 pt [a, b, c, d] = true) := by
  refine ⟨?_, ?_, ?_⟩
  · intro a b c d pt hb
    have h0 : decide (0 < (0 : ℚ)) = false := decide_eq_false (lt_irrefl 0)
    rcases hb with h | h | h | h <;> simp [withinPoly4, h.1, h0]
  · intro a b c d pt hs
    have hf : ∀ x : ℚ, x < 0 → decide (0 < x) = false := fun x hx =>
      decide_eq_false (not_lt.mpr (le_of_lt hx))
    rcases hs with h | h | h | h <;> simp [withinPoly4, hf _ h]
  · intro a b c d pt h1 h2 h3 h4
    simp [withinPoly4, h1, h2, h3, h4]

theorem zoneMembership_strict_witness :
    withinPoly4 (15000, 0)
      [((-15000 : ℚ), (400 : ℚ)), (-15000, -400), (15000, -400), (15000, 400)] = false :=
  zoneMembership_strict.1 (-15000, 400) (-15000, -400) (15000, -400) (15000, 400)
    (15000, 0)
    (Or.inr (Or.inr (Or.inl ⟨by norm_num [cross2], by norm_num, by norm_num,
      by norm_num, by norm_num⟩)))

/-! ## Claim C5: the ping filter -/

theorem sqliteMod_of_nonneg (a : ℤ) (h : 0 ≤ a) : sqliteMod a 180 = a % 180 := by
  unfold sqliteMod
  rw [if_neg (by omega)]

theorem emod180_nonneg (a : ℤ) : 0 ≤ a % 180 :=
  Int.emod_nonneg a (by norm_num)

/-- The float comparison `abs(m - 142.8) < 5` over an integer `m` is the
integer band `138 <= m <= 147`. -/
theorem heading_band (m : ℤ) :
    |((m : ℚ)) - RWY_HDG| < 5 ↔ 138 ≤ m ∧ m ≤ 147 := by
  have hR : RWY_HDG = 1428 / 10 := by norm_num [RWY_HDG]
  rw [hR, abs_lt]
  constructor
  · rintro ⟨h1, h2⟩
    have hl : (137 : ℤ) < m := by
      by_contra hc
      push_neg at hc
      have : (m : ℚ) ≤ 137 := by exact_mod_cast hc
      linarith
    have hr : m < 148 := by
      by_contra hc
      push_neg at hc
      have : (148 : ℚ) ≤ (m : ℚ) := by exact_mod_cast hc
      linarith
    omega
  · rintro ⟨h1, h2⟩
    have h1' : (138 : ℚ) ≤ (m : ℚ) := by exact_mod_cast h1
    have h2' : (m : ℚ) ≤ 147 := by exact_mod_cast h2
    constructor <;> linarith

/-- C5 (confirmed): a ping is airborne iff `on_ground` is false and
`ground_speed >= 20`; a ping that is on the ground or slower than 20 is
never selected; and for the headings the data model provides (0..360,
hence nonnegative), a ping passes `TOFF_LAN_WHERE` iff it is airborne, its
heading mod 180 is nonnegative with `|heading mod 180 - 142.8| < 5`
(equivalently, heading mod 180 lies in the integer band 138..147), and its
altitude is below 10000. -/
theorem pingFilter_spec :
    (∀ p : Ping, airborne_where p = true ↔
      (p.on_ground = false ∧ 20 ≤ p.ground_speed)) ∧
    (∀ p : Ping, p.on_ground = true ∨ p.ground_speed < 20 →
      toff_lan_where p = false) ∧
    (∀ p : Ping, 0 ≤ p.heading →
      (toff_lan_where p = true ↔
        (airborne_where p = true ∧ 0 ≤ sqliteMod p.heading 180 ∧
          |((sqliteMod p.heading 180 : ℤ) : ℚ) - RWY_HDG| < 5 ∧
          p.altitude < 10000))) ∧
    (∀ p : Ping, 0 ≤ p.heading →
      (toff_lan_where p = true ↔
        (airborne_where p = true ∧ 138 ≤ p.heading % 180 ∧
          p.heading % 180 ≤ 147 ∧ p.altitude < 10000))) := by
  refine ⟨?_, ?_, ?_, ?_⟩
  · intro p
    simp [airborne_where, Bool.and_eq_true, decide_eq_true_eq, Bool.not_eq_true']
  · intro p h
    rcases h with h | h
    · simp [toff_lan_where, airborne_where, h]
    · have : decide (20 ≤ p.ground_speed) = false := decide_eq_false (by omega)
      simp [toff_lan_where, airborne_where, this]
  · intro p hp
    have hm := sqliteMod_of_nonneg p.heading hp
    simp only [toff_lan_where, Bool.and_eq_true, decide_eq_true_eq]
    constructor
    · rintro ⟨⟨ha, hb⟩, hc⟩
      exact ⟨ha, by rw [hm]; exact emod180_nonneg _, hb, hc⟩
    · rintro ⟨ha, _, hb, hc⟩
      exact ⟨⟨ha, hb⟩, hc⟩
  · intro p hp
    have hm := sqliteMod_of_nonneg p.heading hp
    simp only [toff_lan_where, Bool.and_eq_true, decide_eq_true_eq, hm,
      heading_band]
    tauto

theorem pingFilter_spec_witness :
    toff_lan_where (mkPing "w" 0) = true ↔
      (airborne_where (mkPing "w" 0) = true ∧ 138 ≤ (mkPing "w" 0).heading % 180 ∧
        (mkPing "w" 0).heading % 180 ≤ 147 ∧ (mkPing "w" 0).altitude < 10000) :=
  pingFilter_spec.2.2.2 (mkPing "w" 0) (by decide)

/-! ## Event aggregation and enrichment (lines 105-154) -/

/-- One record of `data/aircraft.json`: a `model` and a `type`. -/
structure AircraftInfo where
  model : String
  type : String

/-- The reference tables `AIRLINES`, `AIRPORTS`, `AIRCRAFT` as read-only
key-value lookups (`AIRPORTS` records are read only through their `name`
field, so the table is embedded as a name lookup). -/
structure RefTables where
  airlines : String → Option String
  airports : String → Option String
  aircraft : String → Option AircraftInfo

/-- Line 112: `AIRLINES.get(x, '')` formatted as `name (code)`. -/
def airline_display (t : RefTables) (x : String) : String :=
  ((t.airlines x).getD "") ++ " (" ++ x ++ ")"

/-- Line 113: `AIRCRAFT.get(x, {}).get('model', '')` formatted. -/
def aircraft_display (t : RefTables) (x : String) : String :=
  (((t.aircraft x).map AircraftInfo.model).getD "") ++ " (" ++ x ++ ")"

/-- Line 114: `AIRCRAFT.get(x, {}).get('type', 'Unknown')`. -/
def aircraft_type_display (t : RefTables) (x : String) : String :=
  ((t.aircraft x).map AircraftInfo.type).getD "Unknown"

/-- Lines 116-119: a falsy (empty) airport code is replaced by `N/A`
before the lookup and the formatting. -/
def _get_airport_name (t : RefTables) (airport_iata : String) : String :=
  let code := if airport_iata = "" then "N/A" else airport_iata
  ((t.airports code).getD "") ++ " (" ++ code ++ ")"

/-- Arithmetic mean (the pandas `"mean"` aggregation). -/
def listMean (l : List Int) : ℚ :=
  (l.sum : ℚ) / (l.length : ℚ)

/-- Line 108: `"takeoff" if x >= 0 else "landing"`, applied to the mean
vertical speed. -/
def rwy_event_of (x : ℚ) : String :=
  if 0 ≤ x then "takeoff" else "landing"

/-- Lines 109-111: `"14" if heading <= (RWY_HDG + 180) / 2 else "32"`,
applied to the modal heading. -/
def rwy_direction_of (heading : Int) : String :=
  if (heading : ℚ) ≤ (RWY_HDG + 180) / 2 then "14" else "32"

/-- Line 106: `Counter(headings).most_common(1)[0][0]`.  `Counter` counts
keys in first-encounter order and `most_common` sorts stably by
descending count, so the result is the value of maximal count whose first
occurrence is earliest.  `bestOf l cand` scans the candidates from the
left, keeping the incumbent only when it counts strictly higher. -/
def bestOf (l : List Int) : List Int → Option Int
  | [] => none
  | x :: xs =>
    match bestOf l xs with
    | none => some x
    | some b => if l.count b > l.count x then some b else some x

def counterMostCommon (l : List Int) : Option Int :=
  bestOf l l

/-- Lines 124-132: destination for a takeoff, origin for a landing,
`"N/A"` otherwise. -/
def _get_connecting_airport (rwy_event origin_airport destination_airport : String) :
    String :=
  match rwy_event with
  | "landing" => origin_airport
  | "takeoff" => destination_airport
  | _ => "N/A"

/-- One row of the aggregated `toff_land` table (the columns selected at
lines 136-154).  `datetime` is kept as the epoch timestamp of the
sub-flight's first ping; `hour` is the hour of its Europe/Paris local
time, produced by the abstracted timezone conversion `localHour`. -/
structure Event where
  datetime : Int
  airline : String
  aircraft : String
  origin_airport : String
  destination_airport : String
  registration : String
  callsign : String
  number : String
  rwy_event : String
  hour : Int
  connecting_airport : String
  fr_id : String
  rwy_direction : String
  heading : Int
  aircraft_type : String
deriving DecidableEq

/-- `gdf.groupby("subflight_id")`: collect each key's rows, keeping stored
order inside a group and separating the group's first row (the `"first"`
aggregation reads it).  Groups are listed by first occurrence; pandas
lists them by sorted key, an ordering no aggregated column depends on. -/
def group_by_key : List (Ping × String) → List (String × Ping × List Ping)
  | [] => []
  | (p, k) :: rest =>
    (k, p, (rest.filter (fun q => q.2 == k)).map Prod.fst) ::
      group_by_key (rest.filter (fun q => q.2 != k))
termination_by l => l.length
decreasing_by
  simp only [List.length_cons]
  exact Nat.lt_succ_of_le (List.length_filter_le _ _)

/-- Lines 105-134: reduce one sub-flight (first ping `p`, later pings
`ps`) to one event row. -/
def agg_subflight (t : RefTables) (localHour : Int → Int) (p : Ping)
    (ps : List Ping) : Event :=
  let vs_mean := listMean ((p :: ps).map Ping.vertical_speed)
  let hd := (counterMostCommon ((p :: ps).map Ping.heading)).getD 0
  let ev := rwy_event_of vs_mean
  let origin := _get_airport_name t p.origin_airport_iata
  let dest := _get_airport_name t p.destination_airport_iata
  { datetime := p.time
    airline := airline_display t p.airline_icao
    aircraft := aircraft_display t p.aircraft_code
    origin_airport := origin
    destination_airport := dest
    registration := p.registration
    callsign := p.callsign
    number := p.number
    rwy_event := ev
    hour := localHour p.time
    connecting_airport := _get_connecting_airport ev origin dest
    fr_id := p.fr_id
    rwy_direction := rwy_direction_of hd
    heading := hd
    aircraft_type := aircraft_type_display t p.aircraft_code }

/-- `aggregate_takeoffs_landings` (lines 76-154): select the pings that
pass `TOFF_LAN_WHERE`, keep those within the zone polygon (`inZone`
abstracts the `within` test applied to each row's coordinates), key them
into sub-flights, and aggregate each sub-flight into one event row. -/
def aggregate_takeoffs_landings (t : RefTables) (localHour : Int → Int)
    (inZone : Ping → Bool) (rows : List Ping) : List Event :=
  let selected := (rows.filter toff_lan_where).filter inZone
  let keyed := selected.zip (subflight_ids selected)
  (group_by_key keyed).map (fun g => agg_subflight t localHour g.2.1 g.2.2)

/-- All lookups resolve to `none`: the situation of a code absent from
every reference table. -/
def emptyTables : RefTables :=
  ⟨fun _ => none, fun _ => none, fun _ => none⟩

/-! ## Facts about the mode computation -/

theorem bestOf_cons_isSome (l : List Int) (x : Int) (xs : List Int) :
    ∃ b, bestOf l (x :: xs) = some b := by
  show ∃ b, (match bestOf l xs with
    | none => some x
    | some b => if l.count b > l.count x then some b else some x) = some b
  cases bestOf l xs with
  | none => exact ⟨x, rfl⟩
  | some b =>
    by_cases h : l.count b > l.count x
    · exact ⟨b, by simp [h]⟩
    · exact ⟨x, by simp [h]⟩

/-- `bestOf` returns a candidate of maximal count whose first occurrence
among the candidates is earliest (every candidate before it counts
strictly lower). -/
theorem bestOf_spec (l : List Int) :
    ∀ (cand : List Int) (b : Int), bestOf l cand = some b →
      b ∈ cand ∧ (∀ x ∈ cand, l.count x ≤ l.count b) ∧
      ∃ pre post, cand = pre ++ b :: post ∧ ∀ y ∈ pre, l.count y < l.count b := by
  intro cand
  induction cand with
  | nil => intro b h; simp [bestOf] at h
  | cons x xs ih =>
    intro b h
    rw [show bestOf l (x :: xs) = (match bestOf l xs with
      | none => some x
      | some b' => if l.count b' > l.count x then some b' else some x) from rfl] at h
    cases hx : bestOf l xs with
    | none =>
      rw [hx] at h
      have hxs : xs = [] := by
        cases xs with
        | nil => rfl
        | cons y ys =>
          rcases bestOf_cons_isSome l y ys with ⟨c, hc⟩
          rw [hc] at hx
          cases hx
      subst hxs
      have hb : x = b := by injection h
      subst hb
      exact ⟨by simp, by simp, [], [], rfl, by simp⟩
    | some c =>
      rw [hx] at h
      have h' : (if l.count c > l.count x then some c else some x) = some b := h
      rcases ih c hx with ⟨hmem, hmax, pre, post, heq, hpre⟩
      by_cases hcx : l.count c > l.count x
      · rw [if_pos hcx] at h'
        have hb : c = b := by injection h'
        subst hb
        refine ⟨by simp [hmem], ?_, x :: pre, post, by rw [heq]; rfl, ?_⟩
        · intro y hy
          rcases List.mem_cons.mp hy with rfl | hy
          · omega
          · exact hmax y hy
        · intro y hy
          rcases List.mem_cons.mp hy with rfl | hy
          · exact hcx
          · exact hpre y hy
      · rw [if_neg hcx] at h'
        have hb : x = b := by injection h'
        subst hb
        refine ⟨by simp, ?_, [], xs, rfl, by simp⟩
        intro y hy
        rcases List.mem_cons.mp hy with rfl | hy
        · exact le_refl _
        · have := hmax y hy
          omega

/-- The float comparison `heading <= (142.8 + 180) / 2 = 161.4` over an
integer heading is the integer bound `heading <= 161`. -/
theorem direction_band (h : Int) :
    ((h : ℚ) ≤ (RWY_HDG + 180) / 2) ↔ h ≤ 161 := by
  have hth : (RWY_HDG + 180) / 2 = 1614 / 10 := by norm_num [RWY_HDG]
  rw [hth]
  constructor
  · intro hle
    by_contra hc
    push_neg at hc
    have : (162 : ℚ) ≤ (h : ℚ) := by exact_mod_cast hc
    linarith
  · intro hle
    have : (h : ℚ) ≤ 161 := by exact_mod_cast hle
    linarith

/-! ## Claims C6, C7, C8 -/

/-- C6 (confirmed): an aggregated row's `rwy_event` is `"takeoff"` iff the
sub-flight's mean vertical speed is at least 0 and `"landing"` iff it is
negative; a mean of 3.5 gives `"takeoff"`, a mean of exactly 0 gives
`"takeoff"`, and a mean of -1 gives `"landing"`. -/
theorem rwyEvent_mean_spec :
    (∀ (t : RefTables) (lh : Int → Int) (p : Ping) (ps : List Ping),
      ((agg_subflight t lh p ps).rwy_event = "takeoff" ↔
        0 ≤ listMean ((p :: ps).map Ping.vertical_speed)) ∧
      ((agg_subflight t lh p ps).rwy_event = "landing" ↔
        listMean ((p :: ps).map Ping.vertical_speed) < 0)) ∧
    listMean [3, 4] = 7 / 2 ∧ rwy_event_of (7 / 2) = "takeoff" ∧
    rwy_event_of 0 = "takeoff" ∧ listMean [-1] = -1 ∧
    rwy_event_of (-1) = "landing" := by
  have hne : ("takeoff" : String) ≠ "landing" := by decide
  refine ⟨?_, ?_, ?_, ?_, ?_, ?_⟩
  · intro t lh p ps
    have hag : (agg_subflight t lh p ps).rwy_event =
        rwy_event_of (listMean ((p :: ps).map Ping.vertical_speed)) := rfl
    rw [hag]
    by_cases h : 0 ≤ listMean ((p :: ps).map Ping.vertical_speed)
    · have h' : ¬ listMean ((p :: ps).map Ping.vertical_speed) < 0 := not_lt.mpr h
      simp [rwy_event_of, h, h', hne]
    · have h' : listMean ((p :: ps).map Ping.vertical_speed) < 0 := not_le.mp h
      simp [rwy_event_of, h, h', Ne.symm hne]
  · norm_num [listMean]
  · norm_num [rwy_event_of]
  · norm_num [rwy_event_of]
  · norm_num [listMean]
  · norm_num [rwy_event_of]

/-- C7 (confirmed): the representative heading is the mode with ties
broken by first encounter (it occurs in the list, no value counts
strictly higher, and every value first encountered before it counts
strictly lower); `[140, 142, 142, 320]` has mode 142; the direction label
is `"14"` iff the modal heading is at most `(142.8 + 180) / 2 = 161.4`,
i.e. at most 161 for integer headings, so mode 142 gives `"14"`; and the
aggregated row carries exactly these two values. -/
theorem modalHeading_spec :
    (∀ (l : List Int) (m : Int), counterMostCommon l = some m →
      m ∈ l ∧ (∀ x ∈ l, l.count x ≤ l.count m) ∧
      ∃ pre post, l = pre ++ m :: post ∧ ∀ y ∈ pre, l.count y < l.count m) ∧
    (∀ h : Int, (rwy_direction_of h = "14" ↔ (h : ℚ) ≤ (RWY_HDG + 180) / 2) ∧
      (rwy_direction_of h = "14" ↔ h ≤ 161)) ∧
    counterMostCommon [140, 142, 142, 320] = some 142 ∧
    rwy_direction_of 142 = "14" ∧
    (∀ (t : RefTables) (lh : Int → Int) (p : Ping) (ps : List Ping),
      (agg_subflight t lh p ps).heading =
        (counterMostCommon ((p :: ps).map Ping.heading)).getD 0 ∧
      (agg_subflight t lh p ps).rwy_direction =
        rwy_direction_of ((counterMostCommon ((p :: ps).map Ping.heading)).getD 0)) := by
  have hne : ("32" : String) ≠ "14" := by decide
  refine ⟨?_, ?_, ?_, ?_, ?_⟩
  · intro l m h
    exact bestOf_spec l l m h
  · intro h
    have hiff : rwy_direction_of h = "14" ↔ (h : ℚ) ≤ (RWY_HDG + 180) / 2 := by
      unfold rwy_direction_of
      split
      · case isTrue hc => exact ⟨fun _ => hc, fun _ => rfl⟩
      · case isFalse hc => exact ⟨fun hh => absurd hh hne, fun hh => absurd hh hc⟩
    exact ⟨hiff, hiff.trans (direction_band h)⟩
  · decide
  · unfold rwy_direction_of
    rw [if_pos ((direction_band 142).mpr (by norm_num))]
  · intro t lh p ps
    exact ⟨rfl, rfl⟩

theorem modalHeading_spec_witness :
    (142 : Int) ∈ [140, 142, 142, 320] ∧
    (∀ x ∈ [(140 : Int), 142, 142, 320],
      List.count x [(140 : Int), 142, 142, 320] ≤
        List.count 142 [(140 : Int), 142, 142, 320]) ∧
    ∃ pre post, [(140 : Int), 142, 142, 320] = pre ++ 142 :: post ∧
      ∀ y ∈ pre, List.count y [(140 : Int), 142, 142, 320] <
        List.count 142 [(140 : Int), 142, 142, 320] :=
  modalHeading_spec.1 [140, 142, 142, 320] 142 (by decide)

/-- C8 (counterexample): enrichment does not always format an absent code
as `"{display_name} ({code})"`: the airport display replaces an EMPTY code
by `N/A` before the lookup, so the empty code (absent from a table with no
entries) renders as `" (N/A)"`, not `" ()"`. -/
theorem enrichment_empty_code_falsified :
    _get_airport_name emptyTables "" = " (N/A)" ∧
    _get_airport_name emptyTables "" ≠ " ()" := by
  constructor <;> decide

/-- C8 (amended): enrichment lookups are total and never fail; a NONEMPTY
code absent from its table renders with an empty display name as
`" ({code})"` for all three tables (airline `"AFR"` gives `" (AFR)"`, the
absent aircraft type falls back to `"Unknown"`), while the airport display
first replaces an empty code by `N/A`, rendering `" (N/A)"`. -/
theorem enrichment_fallback :
    (∀ (t : RefTables) (x : String), t.airlines x = none →
      airline_display t x = " (" ++ x ++ ")") ∧
    (∀ (t : RefTables) (x : String), t.aircraft x = none →
      aircraft_display t x = " (" ++ x ++ ")" ∧
        aircraft_type_display t x = "Unknown") ∧
    (∀ (t : RefTables) (x : String), x ≠ "" → t.airports x = none →
      _get_airport_name t x = " (" ++ x ++ ")") ∧
    (∀ t : RefTables, t.airports "N/A" = none →
      _get_airport_name t "" = " (N/A)") ∧
    airline_display emptyTables "AFR" = " (AFR)" := by
  refine ⟨?_, ?_, ?_, ?_, by decide⟩
  · intro t x h
    rw [airline_display, h]
    exact congrArg (fun s => s ++ " (" ++ x ++ ")") rfl
  · intro t x h
    constructor
    · rw [aircraft_display, h]
      rfl
    · rw [aircraft_type_display, h]
      rfl
  · intro t x hx h
    show ((t.airports (if x = "" then "N/A" else x)).getD "") ++ " (" ++
      (if x = "" then "N/A" else x) ++ ")" = " (" ++ x ++ ")"
    rw [if_neg hx, h]
    rfl
  · intro t h
    show ((t.airports (if ("" : String) = "" then "N/A" else "")).getD "") ++
      " (" ++ (if ("" : String) = "" then "N/A" else "") ++ ")" = " (N/A)"
    rw [if_pos rfl, h]
    rfl

theorem enrichment_fallback_witness :
    airline_display emptyTables "XYZ" = " (XYZ)" ∧
    _get_airport_name emptyTables "TLS" = " (TLS)" ∧
    _get_airport_name emptyTables "" = " (N/A)" :=
  ⟨enrichment_fallback.1 emptyTables "XYZ" rfl,
    enrichment_fallback.2.2.1 emptyTables "TLS" (by decide) rfl,
    enrichment_fallback.2.2.2.1 emptyTables rfl⟩

/-! ## Claims C9 and C10 -/

/-- C9 (confirmed): the aggregation pipeline is a total function, and on
an empty ping set it returns the empty event collection. -/
theorem aggregate_empty_input :
    ∀ (t : RefTables) (localHour : Int → Int) (inZone : Ping → Bool),
      aggregate_takeoffs_landings t localHour inZone [] = [] := by
  intro t lh iz
  simp [aggregate_takeoffs_landings, group_by_key, subflight_ids, subflight_nb,
    ping_delta_t, groupDiff, cumsumFlags]

/-- C10 (confirmed): every emitted row has `rwy_event` exactly `"takeoff"`
or `"landing"`, and its connecting airport is the destination display for
a takeoff and the origin display for a landing; the `"N/A"` default branch
of `_get_connecting_airport` is never taken. -/
theorem connecting_airport_total :
    ∀ (t : RefTables) (localHour : Int → Int) (inZone : Ping → Bool)
      (rows : List Ping) (e : Event),
      e ∈ aggregate_takeoffs_landings t localHour inZone rows →
      (e.rwy_event = "takeoff" ∧ e.connecting_airport = e.destination_airport) ∨
      (e.rwy_event = "landing" ∧ e.connecting_airport = e.origin_airport) := by
  intro t lh iz rows e he
  rw [aggregate_takeoffs_landings] at he
  rcases List.mem_map.mp he with ⟨g, _, rfl⟩
  by_cases h : 0 ≤ listMean ((g.2.1 :: g.2.2).map Ping.vertical_speed)
  · left
    constructor
    · show rwy_event_of (listMean ((g.2.1 :: g.2.2).map Ping.vertical_speed)) = "takeoff"
      rw [rwy_event_of, if_pos h]
    · show _get_connecting_airport
        (rwy_event_of (listMean ((g.2.1 :: g.2.2).map Ping.vertical_speed)))
        (_get_airport_name t g.2.1.origin_airport_iata)
        (_get_airport_name t g.2.1.destination_airport_iata) =
        _get_airport_name t g.2.1.destination_airport_iata
      rw [rwy_event_of, if_pos h]
      rfl
  · right
    have h' : ¬ 0 ≤ listMean ((g.2.1 :: g.2.2).map Ping.vertical_speed) := h
    constructor
    · show rwy_event_of (listMean ((g.2.1 :: g.2.2).map Ping.vertical_speed)) = "landing"
      rw [rwy_event_of, if_neg h']
    · show _get_connecting_airport
        (rwy_event_of (listMean ((g.2.1 :: g.2.2).map Ping.vertical_speed)))
        (_get_airport_name t g.2.1.origin_airport_iata)
        (_get_airport_name t g.2.1.destination_airport_iata) =
        _get_airport_name t g.2.1.origin_airport_iata
      rw [rwy_event_of, if_neg h']
      rfl

theorem connecting_airport_total_witness :
    ((agg_subflight emptyTables (fun _ => 0) (mkPing "zz" 50) []).rwy_event = "takeoff" ∧
      (agg_subflight emptyTables (fun _ => 0) (mkPing "zz" 50) []).connecting_airport =
        (agg_subflight emptyTables (fun _ => 0) (mkPing "zz" 50) []).destination_airport) ∨
    ((agg_subflight emptyTables (fun _ => 0) (mkPing "zz" 50) []).rwy_event = "landing" ∧
      (agg_subflight emptyTables (fun _ => 0) (mkPing "zz" 50) []).connecting_airport =
        (agg_subflight emptyTables (fun _ => 0) (mkPing "zz" 50) []).origin_airport) := by
  have hband : |((sqliteMod (mkPing "zz" 50).heading 180 : ℤ) : ℚ) - RWY_HDG| < 5 := by
    rw [show sqliteMod (mkPing "zz" 50).heading 180 = 140 from by decide, abs_lt]
    constructor <;> norm_num [RWY_HDG]
  have hf : toff_lan_where (mkPing "zz" 50) = true := by
    simp only [toff_lan_where, decide_eq_true hband]
    decide
  have hagg : aggregate_takeoffs_landings emptyTables (fun _ => 0) (fun _ => true)
      [mkPing "zz" 50] = [agg_subflight emptyTables (fun _ => 0) (mkPing "zz" 50) []] := by
    have hsel : ([mkPing "zz" 50].filter toff_lan_where).filter (fun _ => true) =
        [mkPing "zz" 50] := by
      simp [List.filter_cons, hf]
    have hzip : [mkPing "zz" 50].zip (subflight_ids [mkPing "zz" 50]) =
        [(mkPing "zz" 50, "zz_0")] := rfl
    simp only [aggregate_takeoffs_landings, hsel, hzip, group_by_key,
      List.filter_nil, List.map_nil, List.map_cons]
  exact connecting_airport_total emptyTables (fun _ => 0) (fun _ => true)
    [mkPing "zz" 50] (agg_subflight emptyTables (fun _ => 0) (mkPing "zz" 50) [])
    (by rw [hagg]; exact List.mem_singleton.mpr rfl)
